import Mathlib

/-!
Verification of the Hadean voice-capture plugin core (hadeaninc/mumble):
speech-edge detection, recording-folder lifecycle, per-flush upload worker
with chunking and retry, and the minimal HTTP transport.

The definitions below are a shallow embedding of the C++ sources under
`src/plugins/voiceCapture` and the manager/plugin translation units.
`std::unordered_map` instances are modelled as association lists; wall-clock
time is modelled as natural-number milliseconds; filesystem and network
effects are modelled by explicit oracle environments; C++ exceptions are
modelled with `Option`/`Except` and with explicit failure branches.
-/

/-! ## Generic association-list operations (model of std::unordered_map) -/

/-- `m[k] = v` for `std::unordered_map`: update in place if the key is
present, otherwise append a fresh entry. -/
def setAssoc {κ α : Type} [DecidableEq κ] : List (κ × α) → κ → α → List (κ × α)
  | [], k, v => [(k, v)]
  | (k', v') :: rest, k, v =>
    if k' = k then (k, v) :: rest else (k', v') :: setAssoc rest k v

/-- `m.erase(k)` for `std::unordered_map`: drop every entry with key `k`. -/
def removeAssoc {κ α : Type} [DecidableEq κ] (m : List (κ × α)) (k : κ) : List (κ × α) :=
  m.filter (fun p => p.1 ≠ k)

/-! ## Data model (userData.hpp) -/

/-- `UserData`: username, last-spoke-at timestamp (milliseconds, modelling the
steady-clock `TimePoint`), speaking flag.  Field defaults model C++
value-initialisation performed by `operator[]`. -/
structure UserData where
  username : String := ""
  lastSpokeAt : Nat := 0
  isSpeaking : Bool := false
deriving DecidableEq

/-- `UserTickData`: optional tick identifier and elapsed time parsed from the
backend JSON response. -/
structure UserTickData where
  tickID : Option Int := none
  elapsed : Option Int := none
deriving DecidableEq

/-- `UserTickDataRequest`: the username captured at speech onset plus whether
the `tickDataRequest` pointer is non-null (an in-flight async fetch exists). -/
structure UserTickDataRequest where
  username : String
  hasRequest : Bool
deriving DecidableEq

/-- `UserDataMap`. -/
abbrev UserMap := List (Nat × UserData)

/-- `UserTickDataRequestMap`. -/
abbrev TickMap := List (Nat × UserTickDataRequest)

/-- Read of `m_userMap[userID]` (default-constructs when absent). -/
def findUser (m : UserMap) (uid : Nat) : UserData :=
  (List.lookup uid m).getD {}

/-! ## Filename parsing (RecordingProcessor::process, step 1) -/

/-- The filename component of a path: everything after the last slash. -/
def basenameOf (p : String) : String :=
  String.mk ((p.data.reverse.takeWhile (fun c => c ≠ '/')).reverse)

/-- Index of the last '.' in a character list, if any. -/
def lastDotIndex (cs : List Char) : Option Nat :=
  ((List.range cs.length).filter (fun i => cs.getD i ' ' = '.')).getLast?

/-- `std::filesystem::path::stem` on the filename characters: strip the
extension introduced by the last dot, except when the dot is the leading
character or the name is `.` or `..`. -/
def stemChars (cs : List Char) : List Char :=
  if cs = ['.'] ∨ cs = ['.', '.'] then cs
  else
    match lastDotIndex cs with
    | none => cs
    | some 0 => cs
    | some i => cs.take i

/-- `file.stem()` as a string. -/
def stemOf (p : String) : String :=
  String.mk (stemChars (basenameOf p).data)

/-- `stem.substr(0, stem.find_first_not_of("0123456789"))`. -/
def leadingDigits (s : String) : String :=
  String.mk (s.data.takeWhile Char.isDigit)

/-- Value of a digit string. -/
def digitsToNat (cs : List Char) : Nat :=
  cs.foldl (fun acc c => acc * 10 + (c.toNat - '0'.toNat)) 0

/-- `std::stoi` on a digits-only string: throws (`none`) when the string is
empty (`std::invalid_argument`) or the value exceeds `INT_MAX`
(`std::out_of_range`). -/
def stoiOpt (s : String) : Option Nat :=
  if s.isEmpty then none
  else
    let n := digitsToNat s.data
    if n ≤ 2147483647 then some n else none

/-- Step 1 of `RecordingProcessor::process`: parse the leading digit run of
the file stem as the user id and look up the username in the transferred tick
map; any failure (`std::stoi` throw or `m_userTickMap.at` throw) yields
`none`. -/
def extractUser (tickMap : TickMap) (file : String) : Option (Nat × String) := do
  let uid ← stoiOpt (leadingDigits (stemOf file))
  let req ← List.lookup uid tickMap
  return (uid, req.username)

/-! ## Chunking (RecordingProcessor::process, step 3) -/

/-- The Express body-parser limit: `1024 * 100` bytes. -/
def CHUNK_SIZE : Nat := 1024 * 100

/-- `ceil(fileSize / CHUNK_SIZE)` as computed by the source. -/
def numChunks (size : Nat) : Nat :=
  (size + (CHUNK_SIZE - 1)) / CHUNK_SIZE

/-- Number of bytes actually read into each chunk buffer: each `read` obtains
`min CHUNK_SIZE remaining` bytes and the buffer is resized to `gcount()`. -/
def chunkSizes (size : Nat) : List Nat :=
  (List.range (numChunks size)).map (fun i => min CHUNK_SIZE (size - i * CHUNK_SIZE))

/-! ## Upload worker (RecordingProcessor, recordingProcessor.cpp) -/

/-- One HTTP call issued by the upload worker. -/
inductive HTTPCall where
  /-- `PUT /createFile/<chunkCount>` -/
  | createFile (chunkCount : Nat)
  /-- `POST /fileChunk/<fileID>/<chunkID>` with a chunk body -/
  | fileChunk (fileID : String) (chunkID : Nat) (bodySize : Nat)
  /-- `POST /chat/sendTranscribedAudioFile/...` -/
  | finalizeCall (url : String)
deriving DecidableEq

/-- Oracle environment for one worker pass: outcomes of filesystem and
network operations.  `none` models a thrown exception.  `tickResult` is the
combined outcome of joining the async tick fetch and JSON-parsing its body
(the worker maps a parse failure to empty tick data). -/
structure WorkerEnv where
  topic : String
  fileSize : String → Option Nat
  tickResult : Nat → Option UserTickData
  createFile : String → Option String
  chunkSend : String → Nat → Bool
  finalizeResult : String → Option String
  removeOk : String → Bool

/-- Mutable state threaded through a worker pass: the manager's retry cache
(`m_userTickCache`), the set of files on disk, the trace of HTTP calls, and
`successfulSends`. -/
structure WorkerState where
  cache : List (String × UserTickData)
  disk : List String
  calls : List HTTPCall
  successfulSends : Nat
deriving DecidableEq

/-- `RecordingProcessor::waitForUserTickData`: when an async request exists
for the user, join it and parse, returning empty tick data on any exception;
otherwise return empty tick data. -/
def waitForUserTickData (tickMap : TickMap) (env : WorkerEnv) (uid : Nat) : UserTickData :=
  match List.lookup uid tickMap with
  | some req => if req.hasRequest then (env.tickResult uid).getD {} else {}
  | none => {}

/-- Step 2 of `RecordingProcessor::process`: prefer the cached tick data for
this exact path, else wait for the transferred pending request. -/
def resolveTickData (env : WorkerEnv) (tickMap : TickMap)
    (cache : List (String × UserTickData)) (file : String) (uid : Nat) : UserTickData :=
  match List.lookup file cache with
  | some td => td
  | none => waitForUserTickData tickMap env uid

/-- The finalize URL built in step 6, with the tick query string appended only
when both fields are present. -/
def finalizeURL (username topic fileID : String) (td : UserTickData) : String :=
  "/chat/sendTranscribedAudioFile/from/" ++ username ++ "/" ++ topic ++ "/" ++ fileID ++
    "/wav" ++
    (match td.tickID, td.elapsed with
     | some t, some e => "?tickId=" ++ toString t ++ "&elapsed=" ++ toString e
     | _, _ => "")

/-- Step 5: send each chunk in order, stopping at the first transport throw.
Returns the calls attempted and whether all succeeded. -/
def sendChunks (env : WorkerEnv) (file fileID : String) :
    List Nat → Nat → List HTTPCall × Bool
  | [], _ => ([], true)
  | sz :: rest, i =>
    if env.chunkSend file i then
      let r := sendChunks env file fileID rest (i + 1)
      (HTTPCall.fileChunk fileID i sz :: r.1, r.2)
    else
      ([HTTPCall.fileChunk fileID i sz], false)

/-- Per-file body of `RecordingProcessor::process` (the canonical
create/chunk/finalize variant with retain-on-parse-failure):
step 1 parse (on failure: log and continue, file untouched); step 2 resolve
tick data; steps 3–6 chunk and upload inside the try block; step 7 on success
clear the cache entry and delete the file; on any throw cache the resolved
tick data against the path and leave the file on disk. -/
def processFile (tickMap : TickMap) (env : WorkerEnv) (st : WorkerState)
    (file : String) : WorkerState :=
  match extractUser tickMap file with
  | none => st
  | some (uid, username) =>
    let td := resolveTickData env tickMap st.cache file uid
    match env.fileSize file with
    | none => { st with cache := setAssoc st.cache file td }
    | some size =>
      let sizes := chunkSizes size
      let st1 := { st with calls := st.calls ++ [HTTPCall.createFile sizes.length] }
      match env.createFile file with
      | none => { st1 with cache := setAssoc st1.cache file td }
      | some fileID =>
        let r := sendChunks env file fileID sizes 0
        let st2 := { st1 with calls := st1.calls ++ r.1 }
        if r.2 then
          let url := finalizeURL username env.topic fileID td
          let st3 := { st2 with calls := st2.calls ++ [HTTPCall.finalizeCall url] }
          match env.finalizeResult file with
          | none => { st3 with cache := setAssoc st3.cache file td }
          | some _err =>
            { st3 with
              cache := removeAssoc st3.cache file
              successfulSends := st3.successfulSends + 1
              disk := if env.removeOk file then st3.disk.erase file else st3.disk }
        else { st2 with cache := setAssoc st2.cache file td }

/-- The worker's pass over its file list. -/
def processFiles (tickMap : TickMap) (env : WorkerEnv) (st : WorkerState)
    (files : List String) : WorkerState :=
  files.foldl (processFile tickMap env) st

/-- Whether steps 3–6 for a file run to completion without a throw (success
criterion of the per-file try block; it depends only on the oracles). -/
def uploadSucceeds (env : WorkerEnv) (file : String) : Bool :=
  match env.fileSize file with
  | none => false
  | some size =>
    (env.createFile file).isSome &&
      (List.range (numChunks size)).all (fun i => env.chunkSend file i) &&
      (env.finalizeResult file).isSome

/-! ## Session detector (Manager, src/unnamed/part_002) -/

/-- Speaking timeout in milliseconds (`USER_SPEAKING_TIMEOUT`). -/
def USER_SPEAKING_TIMEOUT : Nat := 100

/-- The `m_userMap` effect of a speech frame (`Manager::userHasJustSpoken`
before the tick-map branch): `lastSpokeAt = now`, `isSpeaking = true`,
inserting a default-constructed record when absent. -/
def userSpoke (now : Nat) (m : UserMap) (uid : Nat) : UserMap :=
  setAssoc m uid { findUser m uid with lastSpokeAt := now, isSpeaking := true }

/-- `Manager::areUsersStillTalking`: clear the speaking flag of every user
whose last frame is at least `USER_SPEAKING_TIMEOUT` old. -/
def areUsersStillTalking (now : Nat) (m : UserMap) : UserMap :=
  m.map (fun p =>
    if p.2.isSpeaking = false then p
    else if now - p.2.lastSpokeAt < USER_SPEAKING_TIMEOUT then p
    else (p.1, { p.2 with isSpeaking := false }))

/-- `Manager::isAUserSpeaking`. -/
def isAUserSpeakingB (m : UserMap) : Bool :=
  m.any (fun p => p.2.isSpeaking)

/-- Core of `Manager::userHasJustSpoken`: update the user map, and when no
pending tick request exists for the user, record one (tagged with the user's
current name) and report that a `GET /replay/tick` request was issued. -/
def userHasJustSpokenCore (now : Nat) (userMap : UserMap) (tickMap : TickMap)
    (uid : Nat) : UserMap × TickMap × Bool :=
  let userMap := userSpoke now userMap uid
  if (List.lookup uid tickMap).isSome then (userMap, tickMap, false)
  else
    (userMap,
     setAssoc tickMap uid { username := (findUser userMap uid).username, hasRequest := true },
     true)

/-- Manager state relevant to `userHasJustSpoken`, plus the trace of issued
tick requests (one entry per outbound `GET /replay/tick`, by user id). -/
structure ManagerTickState where
  userMap : UserMap
  tickMap : TickMap
  requests : List Nat
deriving DecidableEq

/-- `Manager::userHasJustSpoken` acting on `ManagerTickState`. -/
def userHasJustSpoken (now : Nat) (st : ManagerTickState) (uid : Nat) : ManagerTickState :=
  let r := userHasJustSpokenCore now st.userMap st.tickMap uid
  { userMap := r.1
    tickMap := r.2.1
    requests := if r.2.2 then st.requests ++ [uid] else st.requests }

/-- A sequence of speech frames `(now, userID)` delivered to the manager. -/
def runFrames (st : ManagerTickState) (frames : List (Nat × Nat)) : ManagerTickState :=
  frames.foldl (fun st f => userHasJustSpoken f.1 st f.2) st

/-- One detector-loop iteration's input: the frames delivered since the
previous iteration (with their timestamps) and the sweep time. -/
structure DetectorIter where
  frames : List (Nat × Nat)
  time : Nat

/-- Apply a batch of frames to the user map. -/
def applyFrames (m : UserMap) (frames : List (Nat × Nat)) : UserMap :=
  frames.foldl (fun m f => userSpoke f.1 m f.2) m

/-- The detector loop (`Manager::periodic` + `toggleRecordingIfNecessary`):
each iteration applies the pending frames, sweeps stale speakers, recomputes
the aggregate `isAUserSpeaking`, and invokes the host toggle exactly when the
source's edge condition `(!prev && now) || (prev && !now)` holds.  Returns
the per-iteration toggle-invocation trace. -/
def detectorRun (m : UserMap) (prev : Bool) : List DetectorIter → List Bool
  | [] => []
  | it :: rest =>
    let m := areUsersStillTalking it.time (applyFrames m it.frames)
    let now := isAUserSpeakingB m
    ((!prev && now) || (prev && !now)) :: detectorRun m now rest

/-- The aggregate is-anyone-speaking value observed at each iteration. -/
def aggTrace (m : UserMap) : List DetectorIter → List Bool
  | [] => []
  | it :: rest =>
    let m := areUsersStillTalking it.time (applyFrames m it.frames)
    isAUserSpeakingB m :: aggTrace m rest

/-! ## Recording-folder registry (Manager, src/unnamed/part_002) -/

/-- `RecordingFolderData::State`. -/
inductive FolderState where
  | Recording
  | Processing
  | FinishedProcessingUnsuccessfully
  | FinishedProcessingSuccessfully
deriving DecidableEq

/-- `RecordingFolderData`. -/
structure RecordingFolderData where
  recordingFolder : String
  state : FolderState
deriving DecidableEq

/-- Filesystem oracle for the registry: the number of files a directory scan
reports (`none` models a thrown exception) and whether `remove_all`
succeeds. -/
structure FsEnv where
  fileCount : String → Option Nat
  removeAllOk : String → Bool

/-- `Manager::getRecordingFoldersToScan`: skip `Processing` entries, erase
`FinishedProcessingSuccessfully` entries, and mark every other entry
`Processing` while collecting its folder.  Returns the folders to scan and
the updated registry. -/
def getRecordingFoldersToScan :
    List RecordingFolderData → List String × List RecordingFolderData
  | [] => ([], [])
  | rf :: rest =>
    if rf.state = FolderState.Processing then
      let r := getRecordingFoldersToScan rest
      (r.1, rf :: r.2)
    else if rf.state = FolderState.FinishedProcessingSuccessfully then
      getRecordingFoldersToScan rest
    else
      let m := { rf with state := FolderState.Processing }
      let r := getRecordingFoldersToScan rest
      (m.recordingFolder :: r.1, m :: r.2)

/-- Body of the registry update in `Manager::recordingProcessingHasFinished`
for one reported folder against one registry entry: set the state to
`FinishedProcessingUnsuccessfully`, then promote to
`FinishedProcessingSuccessfully` only when the directory scan reports zero
files and the folder deletion succeeds. -/
def processFolderEntry (env : FsEnv) (folder : String)
    (rf : RecordingFolderData) : RecordingFolderData :=
  if rf.recordingFolder = folder then
    let rf1 := { rf with state := FolderState.FinishedProcessingUnsuccessfully }
    match env.fileCount folder with
    | some 0 =>
      if env.removeAllOk folder then
        { rf1 with state := FolderState.FinishedProcessingSuccessfully }
      else rf1
    | _ => rf1
  else rf

/-- `Manager::recordingProcessingHasFinished`: for each folder the worker
reports, update every matching registry entry. -/
def recordingProcessingHasFinished (env : FsEnv) (folders : List String)
    (reg : List RecordingFolderData) : List RecordingFolderData :=
  folders.foldl (fun r f => r.map (processFolderEntry env f)) reg

/-- The state a touched folder ends in, as dictated by the oracles:
successful exactly when the directory is empty and its deletion succeeds. -/
def finishedState (env : FsEnv) (folder : String) : FolderState :=
  match env.fileCount folder with
  | some 0 =>
    if env.removeAllOk folder then FolderState.FinishedProcessingSuccessfully
    else FolderState.FinishedProcessingUnsuccessfully
  | _ => FolderState.FinishedProcessingUnsuccessfully

/-! ## Tick-map ownership transfer (RecordingProcessor constructor) -/

/-- `std::unordered_map::merge`: entries of `src` whose key is absent from
`dest` are moved into `dest`; entries whose key collides stay in `src`.
Returns the resulting `(dest, src)` pair.  The worker's constructor runs
`m_userTickMap.merge(*userTickMap)` with an empty destination. -/
def mergeMaps (dest : TickMap) : TickMap → TickMap × TickMap
  | [] => (dest, [])
  | (k, v) :: rest =>
    if (List.lookup k dest).isSome then
      let r := mergeMaps dest rest
      (r.1, (k, v) :: r.2)
    else
      mergeMaps (dest ++ [(k, v)]) rest

/-- The flush-time transfer in `Manager::pushRecordingsIfAvailable`: the new
worker's map starts empty and merges the manager's map; the pair is
(worker map, manager map after the move). -/
def transferTickMap (managerMap : TickMap) : TickMap × TickMap :=
  mergeMaps [] managerMap

/-! ## HTTP transport (socket.hpp / HTTPRequest::send) -/

/-- HTTP method.  `socket.hpp`'s enum declares only `GET` and `POST`;
`PUT` is the extra enumerator that `RecordingProcessor::process` references
(`HTTPRequest::Data::Method::PUT`, recordingProcessor.cpp step 4) and that
`HTTPRequest::send`'s `default:` branch rejects. -/
inductive HTTPMethod where
  | GET
  | POST
  | PUT
deriving DecidableEq

/-- `static_cast<int>` of the method enumerator. -/
def methodIndex : HTTPMethod → Nat
  | HTTPMethod.GET => 0
  | HTTPMethod.POST => 1
  | HTTPMethod.PUT => 2

/-- `HTTPRequest::Data::ContentType`. -/
inductive HTTPContentType where
  | TEXT
  | RAW
deriving DecidableEq

/-- The content-type header value chosen by `HTTPRequest::send`. -/
def contentTypeString : HTTPContentType → String
  | HTTPContentType.TEXT => "text/plain"
  | HTTPContentType.RAW => "application/octet-stream"

/-- `HTTPRequest::Data`; the body is an optional byte buffer
(`std::shared_ptr<std::vector<char>>`, null modelled as `none`). -/
structure HTTPRequestData where
  host : String
  port : Nat
  method : HTTPMethod
  url : String
  contentType : HTTPContentType
  body : Option (List Nat)
deriving DecidableEq

/-- The body bytes written after the blank line (empty when the pointer is
null). -/
def bodyString : Option (List Nat) → String
  | none => ""
  | some b => String.mk (b.map (fun n => Char.ofNat n))

/-- The request text `HTTPRequest::send` assembles for a supported method
name: request line, fixed content type, computed content length, the
constant `Host: localhost` header, then the body if present. -/
def mkRequestString (methodName : String) (d : HTTPRequestData) : String :=
  methodName ++ " " ++ d.url ++ " HTTP/1.1\r\nContent-Type: " ++
    contentTypeString d.contentType ++
    "\r\nContent-Length: " ++ toString ((d.body.map List.length).getD 0) ++
    "\r\nHost: localhost\r\n\r\n" ++ bodyString d.body

/-- Request construction in `HTTPRequest::send`: the method switch handles
`GET` and `POST` and its `default:` branch throws
`request_exception("invalid HTTP method " + ...)`. -/
def buildHTTPRequest (d : HTTPRequestData) : Except String String :=
  match d.method with
  | HTTPMethod.GET => Except.ok (mkRequestString "GET" d)
  | HTTPMethod.POST => Except.ok (mkRequestString "POST" d)
  | m => Except.error ("invalid HTTP method " ++ toString (methodIndex m))

/-! ## Whole-system schedule for the flush assertion (Manager + host) -/

/-- Global state for the detector/host/flush interaction: the manager's user
and tick maps, the loop-local `aUserWasSpeaking`, the atomic
`m_recordingStoppedSignal`, the host's recording state, the number of
recording-stopped callbacks the host has emitted but not yet delivered, and
the sizes of the tick map at each flush (each flush constructs one
`RecordingProcessor`, whose constructor asserts the map is non-empty). -/
structure SysState where
  userMap : UserMap
  tickMap : TickMap
  prevSpeaking : Bool
  signal : Bool
  hostRecording : Bool
  pendingStops : Nat
  flushes : List Nat
deriving DecidableEq

/-- Interleaved events: a speech frame (`onAudioSourceFetched` →
`userHasJustSpoken`), one iteration of `Manager::periodic` at a given sweep
time, or the host's asynchronous delivery of one recording-stopped callback
(`recordingHasStopped`, which sets the signal). -/
inductive SysEvent where
  | frame (t : Nat) (uid : Nat)
  | iter (t : Nat)
  | deliverStop
deriving DecidableEq

/-- One `Manager::periodic` iteration: `areUsersStillTalking()`, then
`toggleRecordingIfNecessary` (host toggle on an aggregate edge; a toggle
while the host is recording stops it and queues a stopped callback), then
`pushRecordingsIfAvailable` (consume the signal, record the transferred
tick-map size, and empty the tick map). -/
def iterStep (t : Nat) (st : SysState) : SysState :=
  let userMap := areUsersStillTalking t st.userMap
  let nowSpeaking := isAUserSpeakingB userMap
  let toggled := (!st.prevSpeaking && nowSpeaking) || (st.prevSpeaking && !nowSpeaking)
  let hostRecording := if toggled then !st.hostRecording else st.hostRecording
  let pendingStops := if toggled && st.hostRecording then st.pendingStops + 1 else st.pendingStops
  if st.signal then
    { userMap := userMap
      tickMap := []
      prevSpeaking := nowSpeaking
      signal := false
      hostRecording := hostRecording
      pendingStops := pendingStops
      flushes := st.flushes ++ [st.tickMap.length] }
  else
    { st with
      userMap := userMap
      prevSpeaking := nowSpeaking
      hostRecording := hostRecording
      pendingStops := pendingStops }

/-- The system step relation. -/
def sysStep (st : SysState) : SysEvent → SysState
  | SysEvent.frame t uid =>
    let r := userHasJustSpokenCore t st.userMap st.tickMap uid
    { st with userMap := r.1, tickMap := r.2.1 }
  | SysEvent.iter t => iterStep t st
  | SysEvent.deliverStop =>
    if 0 < st.pendingStops then
      { st with pendingStops := st.pendingStops - 1, signal := true }
    else st

/-- Run a schedule of events. -/
def sysRun (st : SysState) (evs : List SysEvent) : SysState :=
  evs.foldl sysStep st

/-- The initial system state: nothing speaking, nothing pending. -/
def sysInit : SysState :=
  { userMap := []
    tickMap := []
    prevSpeaking := false
    signal := false
    hostRecording := false
    pendingStops := 0
    flushes := [] }

/-- A legal schedule in which the host delivers the first recording's stopped
callback only after the user has already started the second session: user 1
speaks at t=0 (start edge at t=50, recording on), stops (stop edge at t=150,
recording off, callback 1 queued), speaks again at t=200 (no new tick-map
entry: user 1 is still pending), callback 1 arrives, the t=250 iteration
starts recording 2 and flushes the single pending entry, the t=350 iteration
stops recording 2 (callback 2 queued), callback 2 arrives, and the t=450
iteration flushes again — with an empty tick map. -/
def c10Trace : List SysEvent :=
  [SysEvent.frame 0 1,
   SysEvent.iter 50,
   SysEvent.iter 150,
   SysEvent.frame 200 1,
   SysEvent.deliverStop,
   SysEvent.iter 250,
   SysEvent.iter 350,
   SysEvent.deliverStop,
   SysEvent.iter 450]

/-! ## Helper lemmas -/

theorem lookup_setAssoc_self {κ α : Type} [DecidableEq κ] (m : List (κ × α)) (k : κ) (v : α) :
    List.lookup k (setAssoc m k v) = some v := by
  induction m with
  | nil => simp [setAssoc]
  | cons p rest ih =>
    cases p with
    | mk a b =>
      by_cases h : a = k
      · simp [setAssoc, h, List.lookup_cons]
      · simp [setAssoc, h, List.lookup_cons, beq_false_of_ne (Ne.symm h), ih]

theorem lookup_setAssoc_ne {κ α : Type} [DecidableEq κ] (m : List (κ × α)) (k k' : κ) (v : α)
    (h : k' ≠ k) : List.lookup k' (setAssoc m k v) = List.lookup k' m := by
  induction m with
  | nil => simp [setAssoc, List.lookup_cons, beq_false_of_ne h]
  | cons p rest ih =>
    cases p with
    | mk a b =>
      by_cases ha : a = k
      · subst ha
        simp [setAssoc, List.lookup_cons, beq_false_of_ne h]
      · by_cases hb : k' = a
        · subst hb
          simp [setAssoc, ha, List.lookup_cons]
        · simp [setAssoc, ha, List.lookup_cons, beq_false_of_ne hb, ih]

theorem lookup_removeAssoc_self {α : Type} (m : List (String × α)) (k : String) :
    List.lookup k (removeAssoc m k) = none := by
  induction m with
  | nil => simp [removeAssoc]
  | cons p rest ih =>
    cases p with
    | mk a b =>
      by_cases h : a = k
      · simpa [removeAssoc, h] using ih
      · simpa [removeAssoc, h, List.lookup_cons, beq_false_of_ne (Ne.symm h)] using ih

theorem lookup_removeAssoc_ne {α : Type} (m : List (String × α)) (k k' : String)
    (h : k' ≠ k) : List.lookup k' (removeAssoc m k) = List.lookup k' m := by
  induction m with
  | nil => simp [removeAssoc]
  | cons p rest ih =>
    cases p with
    | mk a b =>
      by_cases ha : a = k
      · subst ha
        simpa [removeAssoc, List.lookup_cons, beq_false_of_ne h] using ih
      · by_cases hb : k' = a
        · subst hb
          simp [removeAssoc, ha, List.lookup_cons, ih]
        · simp only [removeAssoc, decide_not] at ih
          simp [removeAssoc, ha, List.lookup_cons, beq_false_of_ne hb, ih]

/-- Pointwise form of the registry update: a matching entry is set to the
state the filesystem oracles dictate; other entries are untouched. -/
theorem processFolderEntry_eq (env : FsEnv) (f : String) (rf : RecordingFolderData) :
    processFolderEntry env f rf =
      if rf.recordingFolder = f then { rf with state := finishedState env f } else rf := by
  by_cases h : rf.recordingFolder = f
  · simp only [processFolderEntry, finishedState, if_pos h]
    rcases hc : env.fileCount f with _ | n
    · simp [hc]
    · cases n with
      | zero =>
        by_cases hr : env.removeAllOk f <;> simp [hc, hr]
      | succ m => simp [hc]
  · simp [processFolderEntry, h]

/-- C2 (amended): after a worker reports its folders, every matching registry
entry's state is `FinishedProcessingSuccessfully` exactly when the directory
scan reports zero files AND the folder deletion succeeds, and is
`FinishedProcessingUnsuccessfully` otherwise (including when the file count
cannot be determined); entries are never removed by this operation, so
unsuccessful folders stay registered for future scans. -/
theorem recordingProcessingHasFinished_characterization (env : FsEnv)
    (folders : List String) (reg : List RecordingFolderData) :
    recordingProcessingHasFinished env folders reg =
      reg.map (fun rf =>
        if rf.recordingFolder ∈ folders then
          { rf with state := finishedState env rf.recordingFolder }
        else rf) := by
  induction folders generalizing reg with
  | nil => simp [recordingProcessingHasFinished]
  | cons f fs ih =>
    simp only [recordingProcessingHasFinished, List.foldl_cons] at ih ⊢
    rw [ih, List.map_map]
    apply List.map_congr_left
    intro rf _
    simp only [Function.comp_apply, processFolderEntry_eq]
    cases rf with
    | mk p st =>
      by_cases h : p = f
      · subst h
        by_cases hm : p ∈ fs <;> simp [hm]
      · by_cases hm : p ∈ fs <;> simp [h, hm]

/-- C2 counterexample: with an empty directory whose recursive deletion
fails, the touched folder ends `FinishedProcessingUnsuccessfully` even though
its directory is empty at the end of the pass, refuting the claimed
"FinishedSuccessfully if and only if the directory is empty". -/
theorem recordingProcessingHasFinished_empty_dir_not_successful :
    recordingProcessingHasFinished
        { fileCount := fun _ => some 0, removeAllOk := fun _ => false }
        ["voice0"] [{ recordingFolder := "voice0", state := FolderState.Processing }] =
      [{ recordingFolder := "voice0",
         state := FolderState.FinishedProcessingUnsuccessfully }] := by
  decide

/-- Concrete worker environment for the 250,001-byte upload example: the tick
fetch resolves to tickId 7 and elapsed 42, and every transport call
succeeds. -/
def exampleUploadEnv : WorkerEnv :=
  { topic := "RADIO"
    fileSize := fun _ => some 250001
    tickResult := fun _ => some { tickID := some 7, elapsed := some 42 }
    createFile := fun _ => some "f1"
    chunkSend := fun _ _ => true
    finalizeResult := fun _ => some ""
    removeOk := fun _ => true }

/-- Tick map transferred to the worker in the example: user 5 with a pending
request. -/
def exampleTickMap : TickMap :=
  [(5, { username := "alice", hasRequest := true })]

/-- C1 counterexample: the worker's chunk uploads for a 250,001-byte file
carry bodies of 102400, 102400 and 45201 bytes (CHUNK_SIZE is
1024 * 100 = 102400), not the claimed 100000, 100000 and 1 bytes. -/
theorem upload_chunk_sizes_counterexample :
    ((processFiles exampleTickMap exampleUploadEnv
          { cache := [], disk := ["voice0/5.wav"], calls := [], successfulSends := 0 }
          ["voice0/5.wav"]).calls.filterMap
        (fun c => match c with
          | HTTPCall.fileChunk _ _ sz => some sz
          | _ => none)) = [102400, 102400, 45201] ∧
    ¬ ((processFiles exampleTickMap exampleUploadEnv
          { cache := [], disk := ["voice0/5.wav"], calls := [], successfulSends := 0 }
          ["voice0/5.wav"]).calls.filterMap
        (fun c => match c with
          | HTTPCall.fileChunk _ _ sz => some sz
          | _ => none)) = [100000, 100000, 1] := by
  constructor
  · decide
  · decide

/-- C1 (amended): a 250,001-byte file with resolved tick data tickId 7 and
elapsed 42 uploads as ceil(250001 / 102400) = 3 chunks of sizes 102400,
102400 and 45201 bytes, via one create call, three chunk calls and one
finalize call carrying `?tickId=7&elapsed=42`; on success the retry-cache
entry is cleared and the file is deleted from disk. -/
theorem upload_250001_trace :
    processFiles exampleTickMap exampleUploadEnv
        { cache := [], disk := ["voice0/5.wav"], calls := [], successfulSends := 0 }
        ["voice0/5.wav"] =
      { cache := []
        disk := []
        calls := [HTTPCall.createFile 3,
                  HTTPCall.fileChunk "f1" 0 102400,
                  HTTPCall.fileChunk "f1" 1 102400,
                  HTTPCall.fileChunk "f1" 2 45201,
                  HTTPCall.finalizeCall
                    "/chat/sendTranscribedAudioFile/from/alice/RADIO/f1/wav?tickId=7&elapsed=42"]
        successfulSends := 1 } := by
  decide

/-- C9: the transport's method switch accepts only GET and POST; the PUT
create-file request that `RecordingProcessor::process` issues is rejected
with the `default:` branch's `request_exception`, while a GET request is
assembled with the fixed content type, computed content length and constant
Host header. -/
theorem buildHTTPRequest_put_rejected :
    buildHTTPRequest
        { host := "localhost", port := 8080, method := HTTPMethod.PUT,
          url := "/createFile/3", contentType := HTTPContentType.TEXT, body := none } =
      Except.error "invalid HTTP method 2" ∧
    buildHTTPRequest
        { host := "localhost", port := 8080, method := HTTPMethod.GET,
          url := "/replay/tick", contentType := HTTPContentType.TEXT, body := none } =
      Except.ok
        "GET /replay/tick HTTP/1.1\r\nContent-Type: text/plain\r\nContent-Length: 0\r\nHost: localhost\r\n\r\n" ∧
    buildHTTPRequest
        { host := "localhost", port := 8080, method := HTTPMethod.POST,
          url := "/fileChunk/f1/0", contentType := HTTPContentType.RAW,
          body := some [65, 66] } =
      Except.ok
        "POST /fileChunk/f1/0 HTTP/1.1\r\nContent-Type: application/octet-stream\r\nContent-Length: 2\r\nHost: localhost\r\n\r\nAB" := by
  exact ⟨rfl, rfl, rfl⟩

/-- C10: a legal asynchronous schedule under which a flush transfers an EMPTY
pending-tick-request map: the first flush moves the single pending entry, and
the second recording's stop callback then triggers a flush with no speech
frame having arrived since — so the `RecordingProcessor` constructor's
`assert(!m_userTickMap.empty())` is violated (second recorded flush size 0). -/
theorem flush_with_empty_tick_map :
    (sysRun sysInit c10Trace).flushes = [1, 0] ∧
    0 ∈ (sysRun sysInit c10Trace).flushes := by
  constructor
  · decide
  · decide

/-- The folders returned by one scan pass are exactly those of the registry
entries that are neither `Processing` nor `FinishedProcessingSuccessfully`. -/
theorem getRecordingFoldersToScan_fst (reg : List RecordingFolderData) :
    (getRecordingFoldersToScan reg).1 =
      (reg.filter (fun rf =>
          decide (rf.state ≠ FolderState.Processing ∧
            rf.state ≠ FolderState.FinishedProcessingSuccessfully))).map
        (fun rf => rf.recordingFolder) := by
  induction reg with
  | nil => simp [getRecordingFoldersToScan]
  | cons rf rest ih =>
    by_cases hp : rf.state = FolderState.Processing
    · simp [getRecordingFoldersToScan, hp, ih]
    · by_cases hs : rf.state = FolderState.FinishedProcessingSuccessfully
      · simp [getRecordingFoldersToScan, hp, hs, ih]
      · simp [getRecordingFoldersToScan, hp, hs, ih]

/-- The registry after one scan pass: `FinishedProcessingSuccessfully`
entries are evicted, every remaining entry is marked `Processing`. -/
theorem getRecordingFoldersToScan_snd (reg : List RecordingFolderData) :
    (getRecordingFoldersToScan reg).2 =
      (reg.filter (fun rf =>
          decide (rf.state ≠ FolderState.FinishedProcessingSuccessfully))).map
        (fun rf => { rf with state := FolderState.Processing }) := by
  induction reg with
  | nil => simp [getRecordingFoldersToScan]
  | cons rf rest ih =>
    by_cases hp : rf.state = FolderState.Processing
    · cases rf with
      | mk p st =>
        simp only at hp
        subst hp
        simp [getRecordingFoldersToScan, ih]
    · by_cases hs : rf.state = FolderState.FinishedProcessingSuccessfully
      · simp [getRecordingFoldersToScan, hp, hs, ih]
      · simp [getRecordingFoldersToScan, hp, hs, ih]

/-- C4: `getRecordingFoldersToScan` returns exactly the registered folders
whose state is neither `Processing` nor `FinishedProcessingSuccessfully`,
marks every returned folder `Processing` while evicting every
`FinishedProcessingSuccessfully` entry, and (for a registry with distinct
folder paths) never returns a folder whose entry is `Processing`. -/
theorem getRecordingFoldersToScan_spec (reg : List RecordingFolderData) :
    (getRecordingFoldersToScan reg).1 =
      (reg.filter (fun rf =>
          decide (rf.state ≠ FolderState.Processing ∧
            rf.state ≠ FolderState.FinishedProcessingSuccessfully))).map
        (fun rf => rf.recordingFolder) ∧
    (getRecordingFoldersToScan reg).2 =
      (reg.filter (fun rf =>
          decide (rf.state ≠ FolderState.FinishedProcessingSuccessfully))).map
        (fun rf => { rf with state := FolderState.Processing }) ∧
    ((reg.map (fun rf => rf.recordingFolder)).Nodup →
      ∀ rf ∈ reg, rf.state = FolderState.Processing →
        rf.recordingFolder ∉ (getRecordingFoldersToScan reg).1) := by
  refine ⟨getRecordingFoldersToScan_fst reg, getRecordingFoldersToScan_snd reg, ?_⟩
  intro hnd rf hm hp hcon
  rw [getRecordingFoldersToScan_fst reg] at hcon
  rcases List.mem_map.mp hcon with ⟨rf', hmem, heq⟩
  rcases List.mem_filter.mp hmem with ⟨hmem', hpred⟩
  have : rf' = rf := List.inj_on_of_nodup_map hnd hmem' hm heq
  subst this
  simp only [decide_eq_true_eq] at hpred
  exact hpred.1 hp

/-- C4 witness: a two-entry registry with one `Processing` and one
`FinishedProcessingUnsuccessfully` folder. -/
theorem getRecordingFoldersToScan_spec_witness :
    ([(({ recordingFolder := "voice0", state := FolderState.Processing } :
        RecordingFolderData)).recordingFolder,
      (({ recordingFolder := "voice1",
          state := FolderState.FinishedProcessingUnsuccessfully } :
        RecordingFolderData)).recordingFolder].Nodup) ∧
    ({ recordingFolder := "voice0", state := FolderState.Processing } :
      RecordingFolderData).recordingFolder ∉
      (getRecordingFoldersToScan
        [{ recordingFolder := "voice0", state := FolderState.Processing },
         { recordingFolder := "voice1",
           state := FolderState.FinishedProcessingUnsuccessfully }]).1 := by
  refine ⟨by decide, ?_⟩
  exact (getRecordingFoldersToScan_spec
      [{ recordingFolder := "voice0", state := FolderState.Processing },
       { recordingFolder := "voice1",
         state := FolderState.FinishedProcessingUnsuccessfully }]).2.2
    (by decide)
    { recordingFolder := "voice0", state := FolderState.Processing }
    (by decide) rfl

theorem lookup_append_none {κ α : Type} [DecidableEq κ] (l1 l2 : List (κ × α)) (k : κ)
    (h1 : List.lookup k l1 = none) (h2 : List.lookup k l2 = none) :
    List.lookup k (l1 ++ l2) = none := by
  induction l1 with
  | nil => simpa using h2
  | cons p rest ih =>
    cases p with
    | mk a b =>
      by_cases ha : k = a
      · subst ha
        simp [List.lookup_cons] at h1
      · simp only [List.lookup_cons, beq_false_of_ne ha] at h1
        simpa [List.lookup_cons, beq_false_of_ne ha] using ih h1

/-- `std::unordered_map::merge` moves every entry of a source map whose keys
are disjoint from the destination's; nothing is left behind. -/
theorem mergeMaps_of_disjoint (src : TickMap) :
    ∀ dest : TickMap,
      (∀ k ∈ src.map Prod.fst, List.lookup k dest = none) →
      (src.map Prod.fst).Nodup →
      mergeMaps dest src = (dest ++ src, []) := by
  induction src with
  | nil => intro dest _ _; simp [mergeMaps]
  | cons p rest ih =>
    intro dest hdisj hnd
    cases p with
    | mk k v =>
      have hk : List.lookup k dest = none := hdisj k (by simp)
      have hnd' : (rest.map Prod.fst).Nodup := (List.nodup_cons.mp hnd).2
      have hknotin : k ∉ rest.map Prod.fst := (List.nodup_cons.mp hnd).1
      have hdisj' : ∀ k' ∈ rest.map Prod.fst, List.lookup k' (dest ++ [(k, v)]) = none := by
        intro k' hk'
        have hne : k' ≠ k := fun e => hknotin (e ▸ hk')
        exact lookup_append_none _ _ _ (hdisj k' (by simp [hk']))
          (by simp [List.lookup_cons, beq_false_of_ne hne])
      have := ih (dest ++ [(k, v)]) hdisj' hnd'
      simp [mergeMaps, hk, this]

/-- C5: transferring the pending-tick-request map into a freshly constructed
worker (whose own map starts empty) moves every entry: the worker's map is
exactly the manager's former map and the manager's map is empty immediately
after the move. -/
theorem transferTickMap_moves_all (src : TickMap)
    (h : (src.map Prod.fst).Nodup) :
    transferTickMap src = (src, []) := by
  have := mergeMaps_of_disjoint src [] (by intro k _; rfl) h
  simpa [transferTickMap] using this

/-- C5 witness: a concrete two-user pending map is moved wholesale. -/
theorem transferTickMap_moves_all_witness :
    transferTickMap
        [(1, { username := "alice", hasRequest := true }),
         (2, { username := "bob", hasRequest := true })] =
      ([(1, { username := "alice", hasRequest := true }),
        (2, { username := "bob", hasRequest := true })], []) :=
  transferTickMap_moves_all _ (by decide)

/-- General form of the detector-edge property for any initial
`aUserWasSpeaking` value. -/
theorem detectorRun_eq_edges (its : List DetectorIter) :
    ∀ (m : UserMap) (prev : Bool),
      detectorRun m prev its =
        List.zipWith (fun p now => (!p && now) || (p && !now))
          (prev :: aggTrace m its) (aggTrace m its) := by
  induction its with
  | nil => intro m prev; rfl
  | cons it rest ih =>
    intro m prev
    simp only [detectorRun, aggTrace, List.zipWith]
    exact congrArg _ (ih _ _)

/-- C6: starting from `aUserWasSpeaking = false`, the host toggle is invoked
on exactly the iterations where the post-sweep aggregate is-anyone-speaking
value differs from the previous iteration's (false before the first
iteration): one invocation per edge, none on a no-edge sweep, for any
sequence of per-user speech frames driving the loop. -/
theorem detector_toggles_iff_edges (m : UserMap) (its : List DetectorIter) :
    detectorRun m false its =
      List.zipWith (fun p now => (!p && now) || (p && !now))
        (false :: aggTrace m its) (aggTrace m its) :=
  detectorRun_eq_edges its m false

/-- C7: a file whose stem does not begin with a parseable user id (no leading
digits, out-of-int-range value, or an id with no entry in the transferred
tick map) causes no HTTP calls, no cache change, no disk change — the worker
state is unchanged and processing continues with the remaining files. -/
theorem unparseable_file_skipped (tickMap : TickMap) (env : WorkerEnv)
    (st : WorkerState) (file : String) (rest : List String)
    (h : extractUser tickMap file = none) :
    processFile tickMap env st file = st ∧
    processFiles tickMap env st (file :: rest) = processFiles tickMap env st rest := by
  have h1 : processFile tickMap env st file = st := by
    simp [processFile, h]
  exact ⟨h1, by simp [processFiles, List.foldl_cons, h1]⟩

/-- C7 witness: an orphan file with a non-numeric stem is skipped without any
calls. -/
theorem unparseable_file_skipped_witness :
    processFile []
        { topic := "RADIO", fileSize := fun _ => some 4, tickResult := fun _ => none,
          createFile := fun _ => some "f1", chunkSend := fun _ _ => true,
          finalizeResult := fun _ => some "", removeOk := fun _ => true }
        { cache := [], disk := ["voice0/orphan.wav"], calls := [], successfulSends := 0 }
        "voice0/orphan.wav" =
      { cache := [], disk := ["voice0/orphan.wav"], calls := [], successfulSends := 0 } :=
  (unparseable_file_skipped []
      { topic := "RADIO", fileSize := fun _ => some 4, tickResult := fun _ => none,
        createFile := fun _ => some "f1", chunkSend := fun _ _ => true,
        finalizeResult := fun _ => some "", removeOk := fun _ => true }
      { cache := [], disk := ["voice0/orphan.wav"], calls := [], successfulSends := 0 }
      "voice0/orphan.wav" [] (by decide)).1

/-- A frame never removes tick-map entries: a pending request stays pending. -/
theorem userHasJustSpoken_tickMap_mono (now : Nat) (st : ManagerTickState) (u uid : Nat)
    (h : (List.lookup uid st.tickMap).isSome = true) :
    (List.lookup uid (userHasJustSpoken now st u).tickMap).isSome = true := by
  simp only [userHasJustSpoken, userHasJustSpokenCore]
  by_cases hu : (List.lookup u st.tickMap).isSome = true
  · simpa [hu] using h
  · by_cases huid : uid = u
    · subst huid
      simp [hu, lookup_setAssoc_self]
    · simpa [hu, lookup_setAssoc_ne _ _ _ _ huid] using h

/-- The request trace extension performed by one frame: a new entry exactly
when no pending request exists for the speaking user. -/
theorem userHasJustSpoken_requests (now : Nat) (st : ManagerTickState) (u : Nat) :
    (userHasJustSpoken now st u).requests =
      st.requests ++ (if (List.lookup u st.tickMap).isSome then [] else [u]) := by
  simp only [userHasJustSpoken, userHasJustSpokenCore]
  by_cases h : (List.lookup u st.tickMap).isSome = true <;> simp [h]

/-- A frame for another user leaves a user's pending-request status
unchanged. -/
theorem userHasJustSpoken_tickMap_lookup_ne (now : Nat) (st : ManagerTickState)
    (u uid : Nat) (huid : uid ≠ u) :
    List.lookup uid (userHasJustSpoken now st u).tickMap = List.lookup uid st.tickMap := by
  simp only [userHasJustSpoken, userHasJustSpokenCore]
  by_cases h : (List.lookup u st.tickMap).isSome = true
  · simp [h]
  · simp [h, lookup_setAssoc_ne _ _ _ _ huid]

/-- After a frame for a user, that user has a pending request. -/
theorem userHasJustSpoken_tickMap_lookup_self (now : Nat) (st : ManagerTickState)
    (u : Nat) :
    (List.lookup u (userHasJustSpoken now st u).tickMap).isSome = true := by
  simp only [userHasJustSpoken, userHasJustSpokenCore]
  by_cases h : (List.lookup u st.tickMap).isSome = true
  · simp [h]
  · simp [h, lookup_setAssoc_self]

/-- Across any frame sequence, the number of tick requests issued for a user
exceeds the starting trace by at most one, and by none at all when a request
was already pending. -/
theorem runFrames_count_le (frames : List (Nat × Nat)) :
    ∀ (st : ManagerTickState) (uid : Nat),
      (runFrames st frames).requests.count uid ≤
        st.requests.count uid +
          (if (List.lookup uid st.tickMap).isSome then 0 else 1) := by
  induction frames with
  | nil =>
    intro st uid
    simp only [runFrames, List.foldl_nil]
    split <;> omega
  | cons f fs ih =>
    intro st uid
    have hstep : runFrames st (f :: fs) = runFrames (userHasJustSpoken f.1 st f.2) fs := by
      simp [runFrames, List.foldl_cons]
    rw [hstep]
    refine le_trans (ih _ uid) ?_
    obtain ⟨t, u⟩ := f
    simp only at *
    by_cases huid : uid = u
    · subst huid
      by_cases hA : (List.lookup uid st.tickMap).isSome = true
      · have h2 := userHasJustSpoken_tickMap_lookup_self t st uid
        rw [userHasJustSpoken_requests, if_pos hA, List.append_nil, h2, if_pos rfl,
          if_pos hA]
      · have h2 := userHasJustSpoken_tickMap_lookup_self t st uid
        rw [userHasJustSpoken_requests, if_neg hA, h2, if_pos rfl, if_neg hA,
          List.count_append]
        simp
    · have hcount0 : List.count uid (if (List.lookup u st.tickMap).isSome then
          ([] : List Nat) else [u]) = 0 := by
        by_cases hu : (List.lookup u st.tickMap).isSome = true
        · simp [hu]
        · simp [hu, List.count_singleton, beq_false_of_ne (Ne.symm huid)]
      rw [userHasJustSpoken_requests, List.count_append, hcount0,
        userHasJustSpoken_tickMap_lookup_ne _ _ _ _ huid]
      omega

/-- C8: `userHasJustSpoken` marks the user as speaking with the current
timestamp, issues a tick request exactly when none is pending for that user,
and consequently — starting from an empty pending map (the state right after
a flush) — at most one tick request is issued per user over any sequence of
frames. -/
theorem userHasJustSpoken_spec :
    (∀ (now : Nat) (st : ManagerTickState) (uid : Nat),
      List.lookup uid (userHasJustSpoken now st uid).userMap =
        some { findUser st.userMap uid with lastSpokeAt := now, isSpeaking := true } ∧
      (userHasJustSpoken now st uid).requests =
        st.requests ++ (if (List.lookup uid st.tickMap).isSome then [] else [uid])) ∧
    (∀ (st : ManagerTickState) (frames : List (Nat × Nat)) (uid : Nat),
      st.tickMap = [] → st.requests = [] →
      (runFrames st frames).requests.count uid ≤ 1) := by
  constructor
  · intro now st uid
    refine ⟨?_, userHasJustSpoken_requests now st uid⟩
    simp only [userHasJustSpoken, userHasJustSpokenCore, userSpoke]
    by_cases h : (List.lookup uid st.tickMap).isSome = true <;>
      simp [h, lookup_setAssoc_self]
  · intro st frames uid htm hreq
    have := runFrames_count_le frames st uid
    rw [htm, hreq] at this
    simpa using this

/-- C8 witness: three frames from the same user starting from an empty
pending map produce at most one tick request. -/
theorem userHasJustSpoken_spec_witness :
    (runFrames { userMap := [], tickMap := [], requests := [] }
        [(0, 1), (10, 1), (20, 1)]).requests.count 1 ≤ 1 :=
  userHasJustSpoken_spec.2 { userMap := [], tickMap := [], requests := [] }
    [(0, 1), (10, 1), (20, 1)] 1 rfl rfl

theorem chunkSizes_length (size : Nat) : (chunkSizes size).length = numChunks size := by
  simp [chunkSizes]

/-- The chunk loop succeeds exactly when every chunk send from the starting
index succeeds. -/
theorem sendChunks_snd_iff (env : WorkerEnv) (file fid : String) :
    ∀ (sizes : List Nat) (i : Nat),
      (sendChunks env file fid sizes i).2 = true ↔
        ∀ j < sizes.length, env.chunkSend file (i + j) = true := by
  intro sizes
  induction sizes with
  | nil => intro i; simp [sendChunks]
  | cons sz rest ih =>
    intro i
    by_cases hc : env.chunkSend file i = true
    · simp only [sendChunks, hc, if_true]
      rw [ih (i + 1)]
      constructor
      · intro hall j hj
        cases j with
        | zero => simpa using hc
        | succ j' =>
          have h1 := hall j' (by simpa [List.length_cons] using Nat.lt_of_succ_lt_succ hj)
          have h2 : i + (j' + 1) = i + 1 + j' := by omega
          rw [h2]
          exact h1
      · intro hall j hj
        have h1 := hall (j + 1) (by simpa [List.length_cons] using Nat.succ_lt_succ hj)
        have h2 : i + 1 + j = i + (j + 1) := by omega
        rw [h2]
        exact h1
    · simp only [sendChunks, if_neg hc]
      constructor
      · intro h
        exact absurd h (by simp)
      · intro hall
        have h0 := hall 0 (by simp)
        rw [Nat.add_zero] at h0
        exact absurd h0 hc

/-- Tick-data resolution for a file depends on the cache only through that
file's entry. -/
theorem resolveTickData_congr (env : WorkerEnv) (tickMap : TickMap)
    (c1 c2 : List (String × UserTickData)) (file : String) (uid : Nat)
    (h : List.lookup file c1 = List.lookup file c2) :
    resolveTickData env tickMap c1 file uid = resolveTickData env tickMap c2 file uid := by
  simp only [resolveTickData, h]

/-- Processing one file touches the retry cache and the disk only at that
file's own path. -/
theorem processFile_preserves_other (tickMap : TickMap) (env : WorkerEnv)
    (st : WorkerState) (g f : String) (h : f ≠ g) :
    List.lookup f (processFile tickMap env st g).cache = List.lookup f st.cache ∧
    ((f ∈ (processFile tickMap env st g).disk) ↔ f ∈ st.disk) ∧
    (processFile tickMap env st g).disk.count f ≤ st.disk.count f := by
  rcases hE : extractUser tickMap g with _ | ⟨uid, uname⟩
  · simp [processFile, hE]
  · rcases hS : env.fileSize g with _ | size
    · simp [processFile, hE, hS, lookup_setAssoc_ne _ _ _ _ h]
    · rcases hC : env.createFile g with _ | fid
      · simp [processFile, hE, hS, hC, lookup_setAssoc_ne _ _ _ _ h]
      · cases hR : (sendChunks env g fid (chunkSizes size) 0).2 with
        | false => simp [processFile, hE, hS, hC, hR, lookup_setAssoc_ne _ _ _ _ h]
        | true =>
          rcases hF : env.finalizeResult g with _ | err
          · simp [processFile, hE, hS, hC, hR, hF, lookup_setAssoc_ne _ _ _ _ h]
          · by_cases hRm : env.removeOk g = true
            · simp [processFile, hE, hS, hC, hR, hF, hRm,
                lookup_removeAssoc_ne _ _ _ h,
                List.mem_erase_of_ne h, List.count_erase_of_ne h]
            · simp [processFile, hE, hS, hC, hR, hF, hRm, lookup_removeAssoc_ne _ _ _ h]

/-- Processing a list of other files leaves a file's cache entry and
disk membership unchanged. -/
theorem processFiles_preserves_other (tickMap : TickMap) (env : WorkerEnv) :
    ∀ (fs : List String) (st : WorkerState) (f : String), f ∉ fs →
      List.lookup f (processFiles tickMap env st fs).cache = List.lookup f st.cache ∧
      ((f ∈ (processFiles tickMap env st fs).disk) ↔ f ∈ st.disk) := by
  intro fs
  induction fs with
  | nil => intro st f _; simp [processFiles]
  | cons g rest ih =>
    intro st f hf
    have hne : f ≠ g := fun e => hf (by simp [e])
    have h1 := processFile_preserves_other tickMap env st g f hne
    have h2 := ih (processFile tickMap env st g) f (fun hm => hf (by simp [hm]))
    have hcons : processFiles tickMap env st (g :: rest) =
        processFiles tickMap env (processFile tickMap env st g) rest := rfl
    rw [hcons]
    exact ⟨by rw [h2.1, h1.1], h2.2.trans h1.2.1⟩

/-- Outcome of processing a file itself: on a successful upload the cache
entry for its path is cleared and (when the filesystem delete succeeds) the
file leaves the disk; on any failure in steps 2–6 the resolved tick data is
cached against the path and the disk is untouched. -/
theorem processFile_self (tickMap : TickMap) (env : WorkerEnv) (st : WorkerState)
    (f : String) (uid : Nat) (uname : String)
    (hex : extractUser tickMap f = some (uid, uname))
    (hcnt : st.disk.count f ≤ 1) :
    (uploadSucceeds env f = true →
       List.lookup f (processFile tickMap env st f).cache = none ∧
       (env.removeOk f = true → f ∉ (processFile tickMap env st f).disk)) ∧
    (uploadSucceeds env f = false →
       List.lookup f (processFile tickMap env st f).cache =
         some (resolveTickData env tickMap st.cache f uid) ∧
       (processFile tickMap env st f).disk = st.disk) := by
  rcases hS : env.fileSize f with _ | size
  · have hus : uploadSucceeds env f = false := by simp [uploadSucceeds, hS]
    refine ⟨fun h => by simp [hus] at h, fun _ => ?_⟩
    simp [processFile, hex, hS, lookup_setAssoc_self]
  · rcases hC : env.createFile f with _ | fid
    · have hus : uploadSucceeds env f = false := by simp [uploadSucceeds, hS, hC]
      refine ⟨fun h => by simp [hus] at h, fun _ => ?_⟩
      simp [processFile, hex, hS, hC, lookup_setAssoc_self]
    · cases hR : (sendChunks env f fid (chunkSizes size) 0).2 with
      | false =>
        have hallfalse :
            (List.range (numChunks size)).all (fun i => env.chunkSend f i) = false := by
          have hnot : ¬ ((List.range (numChunks size)).all
              (fun i => env.chunkSend f i) = true) := by
            intro htrue
            have h2 : (sendChunks env f fid (chunkSizes size) 0).2 = true := by
              rw [sendChunks_snd_iff]
              intro j hj
              have := List.all_eq_true.mp htrue j
                (List.mem_range.mpr (by simpa [chunkSizes_length] using hj))
              simpa using this
            rw [hR] at h2
            cases h2
          simpa using hnot
        have hus : uploadSucceeds env f = false := by
          simp [uploadSucceeds, hS, hC, hallfalse]
        refine ⟨fun h => by simp [hus] at h, fun _ => ?_⟩
        simp [processFile, hex, hS, hC, hR, lookup_setAssoc_self]
      | true =>
        rcases hF : env.finalizeResult f with _ | err
        · have hus : uploadSucceeds env f = false := by
            simp [uploadSucceeds, hS, hC, hF]
          refine ⟨fun h => by simp [hus] at h, fun _ => ?_⟩
          simp [processFile, hex, hS, hC, hR, hF, lookup_setAssoc_self]
        · have hall :
              (List.range (numChunks size)).all (fun i => env.chunkSend f i) = true := by
            rw [List.all_eq_true]
            intro x hx
            have hx' := List.mem_range.mp hx
            have := (sendChunks_snd_iff env f fid (chunkSizes size) 0).mp hR x
              (by simpa [chunkSizes_length] using hx')
            simpa using this
          have hus : uploadSucceeds env f = true := by
            simp [uploadSucceeds, hS, hC, hF, hall]
          refine ⟨fun _ => ?_, fun h => by simp [hus] at h⟩
          constructor
          · simp [processFile, hex, hS, hC, hR, hF, lookup_removeAssoc_self]
          · intro hrm
            simp only [processFile, hex, hS, hC, hR, hF, hrm]
            have hzero : List.count f (st.disk.erase f) = 0 := by
              rw [List.count_erase_self]
              omega
            have hnotmem : f ∉ st.disk.erase f := List.count_eq_zero.mp hzero
            simpa [hrm] using hnotmem

/-- Outcome of a whole pass for any file in the list (the list being the
files on disk at pass start). -/
theorem processFiles_outcome (tickMap : TickMap) (env : WorkerEnv) (f : String)
    (uid : Nat) (uname : String)
    (hex : extractUser tickMap f = some (uid, uname)) :
    ∀ (fs : List String) (st : WorkerState), f ∈ fs → fs.Nodup → st.disk.count f ≤ 1 →
      (uploadSucceeds env f = true →
         List.lookup f (processFiles tickMap env st fs).cache = none ∧
         (env.removeOk f = true → f ∉ (processFiles tickMap env st fs).disk)) ∧
      (uploadSucceeds env f = false →
         List.lookup f (processFiles tickMap env st fs).cache =
           some (resolveTickData env tickMap st.cache f uid) ∧
         (f ∈ st.disk → f ∈ (processFiles tickMap env st fs).disk)) := by
  intro fs
  induction fs with
  | nil => intro st hf; simp at hf
  | cons g rest ih =>
    intro st hf hnd hcnt
    rcases List.nodup_cons.mp hnd with ⟨hgnotin, hndrest⟩
    have hcons : processFiles tickMap env st (g :: rest) =
        processFiles tickMap env (processFile tickMap env st g) rest := rfl
    by_cases hg : g = f
    · subst hg
      have hself := processFile_self tickMap env st g uid uname hex hcnt
      have hpres := processFiles_preserves_other tickMap env rest
        (processFile tickMap env st g) g hgnotin
      rw [hcons]
      constructor
      · intro hus
        obtain ⟨hc, hd⟩ := hself.1 hus
        exact ⟨by rw [hpres.1, hc],
          fun hrm hm => (hd hrm) (hpres.2.mp hm)⟩
      · intro hus
        obtain ⟨hc, hd⟩ := hself.2 hus
        refine ⟨by rw [hpres.1, hc], fun hm => ?_⟩
        exact hpres.2.mpr (by rw [hd]; exact hm)
    · have hfinrest : f ∈ rest := by
        rcases List.mem_cons.mp hf with h1 | h1
        · exact absurd h1.symm hg
        · exact h1
      have hne : f ≠ g := fun e => hg e.symm
      have hstep := processFile_preserves_other tickMap env st g f hne
      rw [hcons]
      have ihst := ih (processFile tickMap env st g) hfinrest hndrest
        (le_trans hstep.2.2 hcnt)
      refine ⟨ihst.1, fun hus => ?_⟩
      obtain ⟨hc, hd⟩ := ihst.2 hus
      refine ⟨?_, fun hm => hd (hstep.2.1.mpr hm)⟩
      rw [hc]
      exact congrArg some (resolveTickData_congr env tickMap _ _ f uid hstep.1)

/-- C3: after a worker pass over a duplicate-free file list (the files on
disk at scan time), every file whose user id parses has its retry-cache entry
determined by the pass outcome: a failed file's resolved tick data is cached
under its path and the file remains on disk, while a successful file's entry
is removed and (when the delete succeeds) the file leaves the disk. -/
theorem retry_cache_after_pass (tickMap : TickMap) (env : WorkerEnv)
    (c0 : List (String × UserTickData)) (files : List String) (f : String)
    (uid : Nat) (uname : String)
    (hnd : files.Nodup) (hf : f ∈ files)
    (hex : extractUser tickMap f = some (uid, uname)) :
    (uploadSucceeds env f = true →
       List.lookup f (processFiles tickMap env
           { cache := c0, disk := files, calls := [], successfulSends := 0 }
           files).cache = none ∧
       (env.removeOk f = true →
         f ∉ (processFiles tickMap env
             { cache := c0, disk := files, calls := [], successfulSends := 0 }
             files).disk)) ∧
    (uploadSucceeds env f = false →
       List.lookup f (processFiles tickMap env
           { cache := c0, disk := files, calls := [], successfulSends := 0 }
           files).cache = some (resolveTickData env tickMap c0 f uid) ∧
       f ∈ (processFiles tickMap env
           { cache := c0, disk := files, calls := [], successfulSends := 0 }
           files).disk) := by
  have hcnt : List.count f files ≤ 1 := List.nodup_iff_count_le_one.mp hnd f
  have h := processFiles_outcome tickMap env f uid uname hex files
    { cache := c0, disk := files, calls := [], successfulSends := 0 } hf hnd hcnt
  exact ⟨h.1, fun hus => ⟨(h.2 hus).1, (h.2 hus).2 hf⟩⟩

/-- Worker environment for the C3 witness: the create call fails for the
second file only. -/
def retryWitnessEnv : WorkerEnv :=
  { topic := "RADIO"
    fileSize := fun _ => some 10
    tickResult := fun _ => some { tickID := some 3, elapsed := some 4 }
    createFile := fun p => if p = "voice0/6.wav" then none else some "f1"
    chunkSend := fun _ _ => true
    finalizeResult := fun _ => some ""
    removeOk := fun _ => true }

/-- Tick map for the C3 witness. -/
def retryWitnessTickMap : TickMap :=
  [(5, { username := "alice", hasRequest := true }),
   (6, { username := "bob", hasRequest := true })]

/-- C3 witness: in a pass over two files where the second file's create call
throws, the failed file's resolved tick data is cached and the file stays on
disk. -/
theorem retry_cache_after_pass_witness :
    List.lookup "voice0/6.wav"
        (processFiles retryWitnessTickMap retryWitnessEnv
          { cache := [], disk := ["voice0/5.wav", "voice0/6.wav"], calls := [],
            successfulSends := 0 }
          ["voice0/5.wav", "voice0/6.wav"]).cache =
      some (resolveTickData retryWitnessEnv retryWitnessTickMap [] "voice0/6.wav" 6) ∧
    "voice0/6.wav" ∈ (processFiles retryWitnessTickMap retryWitnessEnv
        { cache := [], disk := ["voice0/5.wav", "voice0/6.wav"], calls := [],
          successfulSends := 0 }
        ["voice0/5.wav", "voice0/6.wav"]).disk :=
  (retry_cache_after_pass retryWitnessTickMap retryWitnessEnv []
      ["voice0/5.wav", "voice0/6.wav"] "voice0/6.wav" 6 "bob"
      (by decide) (by decide) (by decide)).2 (by decide)
